import Mathlib

/-!
Verification of the multi-tenant starter backend: a shallow embedding of the
organisation service (`organisation.service.ts`, `organisation.repository.ts`)
and the auth login route (`auth.routes.ts`), together with proofs of the
specified properties.

Modelling conventions:
* JavaScript strings are Lean `String`s; `String.prototype.trim` and
  `String.prototype.toLowerCase` are embedded as `jsTrim` / `jsToLowerCase`
  over the character list.
* `Date` values are abstract instants modelled as `Nat`; `toISOString` is an
  injective rendering, so equality of instants is equality of rendered stamps.
* Mongo collections are lists of documents in natural order; `findOne` is the
  first match, `updateOne` / `findOneAndUpdate` rewrite the first match,
  `deleteOne` removes the first match.
* `ObjectId` values are carried as their canonical string form.
* External effects (bcrypt comparison, `randomUUID`, the clock) enter the
  functions as explicit parameters.
-/

namespace MultiTenant

/-- Characters removed by the JavaScript string `trim` operation: the
ECMAScript WhiteSpace and LineTerminator code points (the common ones). -/
def isJsWhitespace (c : Char) : Bool :=
  c.toNat == 32 || c.toNat == 9 || c.toNat == 10 || c.toNat == 11 ||
  c.toNat == 12 || c.toNat == 13 || c.toNat == 160 || c.toNat == 65279 ||
  c.toNat == 8232 || c.toNat == 8233

/-- Character-list form of the JavaScript `trim`: drop leading and trailing
whitespace. -/
def jsTrimChars (l : List Char) : List Char :=
  ((l.dropWhile isJsWhitespace).reverse.dropWhile isJsWhitespace).reverse

/-- Embedding of `String.prototype.trim`. -/
def jsTrim (s : String) : String :=
  String.mk (jsTrimChars s.data)

/-- Embedding of `String.prototype.toLowerCase` (character-wise lowering). -/
def jsToLowerCase (s : String) : String :=
  String.mk (s.data.map Char.toLower)

/-- Models `ObjectId.isValid` from the mongodb driver: a string is accepted
exactly when it is a 24-character hex string or has length 12 (taken as the
12 raw bytes of an id). -/
def ObjectId.isValid (s : String) : Bool :=
  s.length == 12 ||
    (s.length == 24 && s.data.all fun c =>
      (48 ≤ c.toNat && c.toNat ≤ 57) ||
      (97 ≤ c.toNat && c.toNat ≤ 102) ||
      (65 ≤ c.toNat && c.toNat ≤ 70))

/-- Statuses from `organisationStatuses` in `organisation.model.ts`. -/
inductive OrganisationStatus
  | active
  | inactive
  | archived
deriving DecidableEq, Repr

/-- Stored organisation document (`OrganisationDocument`). -/
structure OrganisationDocument where
  _id : String
  name : String
  slug : String
  status : OrganisationStatus
  createdAt : Nat
  updatedAt : Nat
deriving DecidableEq, Repr

/-- Replace the first element whose key matches `id`, applying `f` to it;
models a Mongo single-document update keyed on `_id`. -/
def updateFirstBy (key : α → String) : List α → String → (α → α) → List α
  | [], _, _ => []
  | x :: rest, id, f =>
    if key x == id then f x :: rest else x :: updateFirstBy key rest id f

/-- Remove the first element whose key matches `id`; models `deleteOne`
keyed on `_id`. -/
def deleteFirstBy (key : α → String) : List α → String → List α
  | [], _ => []
  | x :: rest, id =>
    if key x == id then rest else x :: deleteFirstBy key rest id

namespace OrganisationRepository

/-- Models `findById`: `findOne({ _id: id })`. -/
def findById (db : List OrganisationDocument) (id : String) :
    Option OrganisationDocument :=
  db.find? fun o => o._id == id

/-- Models `findBySlug`: `findOne({ slug })`. -/
def findBySlug (db : List OrganisationDocument) (slug : String) :
    Option OrganisationDocument :=
  db.find? fun o => o.slug == slug

/-- Models `create`: `insertOne` followed by returning the document with its
inserted id. -/
def insertOne (db : List OrganisationDocument) (doc : OrganisationDocument) :
    List OrganisationDocument :=
  db ++ [doc]

end OrganisationRepository

/-- The `$set` payload built by `OrganisationService.update`: optional name,
slug and status, plus the always-present refreshed update stamp. -/
structure UpdateOrganisationDoc where
  name : Option String
  slug : Option String
  status : Option OrganisationStatus
  updatedAt : Nat
deriving DecidableEq

/-- Applying a `$set` payload to a stored document. -/
def applySet (o : OrganisationDocument) (p : UpdateOrganisationDoc) :
    OrganisationDocument :=
  { _id := o._id
    name := p.name.getD o.name
    slug := p.slug.getD o.slug
    status := p.status.getD o.status
    createdAt := o.createdAt
    updatedAt := p.updatedAt }

namespace OrganisationRepository

/-- Models `updateById`: `findOneAndUpdate({ _id: id }, { $set: payload },
{ returnDocument: 'after' })`; returns the post-update document (or `none`)
together with the new collection state. -/
def updateById (db : List OrganisationDocument) (id : String)
    (payload : UpdateOrganisationDoc) :
    Option OrganisationDocument × List OrganisationDocument :=
  match findById db id with
  | none => (none, db)
  | some o =>
    (some (applySet o payload),
      updateFirstBy (fun d => d._id) db id fun d => applySet d payload)

/-- Models `deleteById`: `deleteOne({ _id: id })`, reporting whether the
deleted count was one, together with the new collection state. -/
def deleteById (db : List OrganisationDocument) (id : String) :
    Bool × List OrganisationDocument :=
  (db.any (fun o => o._id == id), deleteFirstBy (fun o => o._id) db id)

end OrganisationRepository

/-- The error taxonomy of `organisation.service.ts`:
`InvalidOrganisationIdError`, `OrganisationNotFoundError`,
`OrganisationSlugTakenError`. -/
inductive OrganisationError
  | invalidId
  | notFound
  | slugTaken
deriving DecidableEq, Repr

/-- API-facing organisation view (`OrganisationResponse`); the `_id` is
rendered as a string and the stamps as textual timestamps, both injective, so
they are carried here in their underlying form. -/
structure OrganisationResponse where
  id : String
  name : String
  slug : String
  status : OrganisationStatus
  createdAt : Nat
  updatedAt : Nat
deriving DecidableEq, Repr

/-- Models `toOrganisationResponse`. -/
def toOrganisationResponse (o : OrganisationDocument) : OrganisationResponse :=
  { id := o._id
    name := o.name
    slug := o.slug
    status := o.status
    createdAt := o.createdAt
    updatedAt := o.updatedAt }

/-- Models `normaliseSlug`: `slug.trim().toLowerCase()`. -/
def normaliseSlug (slug : String) : String :=
  jsToLowerCase (jsTrim slug)

/-- Models `normaliseName`: `name.trim()`. -/
def normaliseName (name : String) : String :=
  jsTrim name

/-- Models `parseObjectId`: reject ill-formed id strings with the invalid-id
error, otherwise yield the id. -/
def parseObjectId (id : String) : Except OrganisationError String :=
  if ObjectId.isValid id then Except.ok id
  else Except.error OrganisationError.invalidId

/-- Input of `OrganisationService.create` (`CreateOrganisationInput`); the
status may be left unspecified. -/
structure CreateOrganisationInput where
  name : String
  slug : String
  status : Option OrganisationStatus
deriving DecidableEq

/-- Input of `OrganisationService.update` (`UpdateOrganisationInput`): every
field optional. -/
structure UpdateOrganisationInput where
  name : Option String
  slug : Option String
  status : Option OrganisationStatus
deriving DecidableEq

namespace OrganisationService

/-- Models `OrganisationService.getById`. -/
def getById (db : List OrganisationDocument) (id : String) :
    Except OrganisationError OrganisationResponse :=
  match parseObjectId id with
  | Except.error e => Except.error e
  | Except.ok objectId =>
    match OrganisationRepository.findById db objectId with
    | none => Except.error OrganisationError.notFound
    | some organisation => Except.ok (toOrganisationResponse organisation)

/-- Models `OrganisationService.create`; `freshId` is the id the driver mints
for `insertOne`, `now` is `new Date()` at entry. -/
def create (db : List OrganisationDocument) (freshId : String) (now : Nat)
    (input : CreateOrganisationInput) :
    Except OrganisationError (OrganisationResponse × List OrganisationDocument) :=
  let name := normaliseName input.name
  let slug := normaliseSlug input.slug
  match OrganisationRepository.findBySlug db slug with
  | some _ => Except.error OrganisationError.slugTaken
  | none =>
    let doc : OrganisationDocument :=
      { _id := freshId
        name := name
        slug := slug
        status := input.status.getD OrganisationStatus.active
        createdAt := now
        updatedAt := now }
    Except.ok (toOrganisationResponse doc, OrganisationRepository.insertOne db doc)

/-- The slug-uniqueness re-check inside `OrganisationService.update`: a
supplied slug conflicts when, after normalisation, it differs from the
record's current slug and some other record (a different identity) already
holds it. -/
def slugChangeConflict (db : List OrganisationDocument)
    (organisation : OrganisationDocument) : Option String → Bool
  | none => false
  | some s =>
    let slug := normaliseSlug s
    if slug == organisation.slug then false
    else
      match OrganisationRepository.findBySlug db slug with
      | some existing => existing._id != organisation._id
      | none => false

/-- Models `OrganisationService.update`. The repository is read at state
`dbLoad` (the `findById` load and the slug uniqueness check) and written at
state `dbWrite` (the `findOneAndUpdate`); a sequential call has
`dbLoad = dbWrite`, while a record deleted concurrently between load and
write is modelled by a `dbWrite` that no longer holds it. -/
def update (dbLoad dbWrite : List OrganisationDocument) (now : Nat)
    (id : String) (input : UpdateOrganisationInput) :
    Except OrganisationError (OrganisationResponse × List OrganisationDocument) :=
  match parseObjectId id with
  | Except.error e => Except.error e
  | Except.ok objectId =>
    match OrganisationRepository.findById dbLoad objectId with
    | none => Except.error OrganisationError.notFound
    | some organisation =>
      if slugChangeConflict dbLoad organisation input.slug then
        Except.error OrganisationError.slugTaken
      else
        let payload : UpdateOrganisationDoc :=
          { name := input.name.map normaliseName
            slug := input.slug.map normaliseSlug
            status := input.status
            updatedAt := now }
        match OrganisationRepository.updateById dbWrite organisation._id payload with
        | (none, _) => Except.error OrganisationError.notFound
        | (some updated, db2) =>
          Except.ok (toOrganisationResponse updated, db2)

/-- Models `OrganisationService.delete`. -/
def delete (db : List OrganisationDocument) (id : String) :
    Except OrganisationError (List OrganisationDocument) :=
  match parseObjectId id with
  | Except.error e => Except.error e
  | Except.ok objectId =>
    match OrganisationRepository.deleteById db objectId with
    | (true, db2) => Except.ok db2
    | (false, _) => Except.error OrganisationError.notFound

end OrganisationService

/-- Characters allowed inside slug groups: `[a-z0-9]`. -/
def isKebabChar (c : Char) : Bool :=
  (97 ≤ c.toNat && c.toNat ≤ 122) || (48 ≤ c.toNat && c.toNat ≤ 57)

/-- Matcher for the anchored pattern `[a-z0-9]+(-[a-z0-9]+)*`; the flag
records whether the current group already holds a character. -/
def slugPatternAux : List Char → Bool → Bool
  | [], seenOne => seenOne
  | c :: rest, seenOne =>
    if isKebabChar c then slugPatternAux rest true
    else if c == '-' then seenOne && slugPatternAux rest false
    else false

/-- The slug format enforced by the route body schemas
(`OrganisationCreateRequest` / `OrganisationUpdateRequest`):
`^[a-z0-9]+(?:-[a-z0-9]+)*$`. -/
def matchesSlugPattern (s : String) : Bool :=
  slugPatternAux s.data false

/-- Create inputs accepted by the route validation: nonempty name and a slug
matching the kebab-case pattern. -/
def validCreateInput (input : CreateOrganisationInput) : Bool :=
  decide (1 ≤ input.name.length) && matchesSlugPattern input.slug

/-- Update inputs accepted by the route validation: every supplied field
satisfies the create-side constraint. -/
def validUpdateInput (input : UpdateOrganisationInput) : Bool :=
  (match input.name with
   | none => true
   | some n => decide (1 ≤ n.length)) &&
  (match input.slug with
   | none => true
   | some s => matchesSlugPattern s)

/-- States of the organisations collection reachable from the empty
collection through create / update / delete calls whose bodies passed the
route validation; on insert the driver mints an id not already present. -/
inductive Reachable : List OrganisationDocument → Prop
  | empty : Reachable []
  | stepCreate (db : List OrganisationDocument) (freshId : String) (now : Nat)
      (input : CreateOrganisationInput) (resp : OrganisationResponse)
      (db2 : List OrganisationDocument) :
      Reachable db →
      validCreateInput input = true →
      freshId ∉ db.map (fun o => o._id) →
      OrganisationService.create db freshId now input = Except.ok (resp, db2) →
      Reachable db2
  | stepUpdate (db : List OrganisationDocument) (now : Nat) (id : String)
      (input : UpdateOrganisationInput) (resp : OrganisationResponse)
      (db2 : List OrganisationDocument) :
      Reachable db →
      validUpdateInput input = true →
      OrganisationService.update db db now id input = Except.ok (resp, db2) →
      Reachable db2
  | stepDelete (db : List OrganisationDocument) (id : String)
      (db2 : List OrganisationDocument) :
      Reachable db →
      OrganisationService.delete db id = Except.ok db2 →
      Reachable db2

/-- The organisation-collection invariant: distinct identities, distinct
slugs, and every stored slug in the kebab-case format. -/
def GoodState (db : List OrganisationDocument) : Prop :=
  (db.map fun o => o._id).Nodup ∧
  (db.map fun o => o.slug).Nodup ∧
  ∀ o ∈ db, matchesSlugPattern o.slug = true

/-- User statuses from `user.model.ts`. -/
inductive UserStatus
  | active
  | inactive
  | invited
  | suspended
deriving DecidableEq, Repr

/-- Textual form of a user status, as interpolated into reply messages. -/
def UserStatus.toString : UserStatus → String
  | UserStatus.active => "active"
  | UserStatus.inactive => "inactive"
  | UserStatus.invited => "invited"
  | UserStatus.suspended => "suspended"

/-- Stored user document (`UserDocument`). -/
structure UserDocument where
  _id : String
  email : String
  passwordHash : String
  status : UserStatus
  orgId : Option String
  roleId : Option String
  designationId : Option String
  mobileNumber : Option String
  lastLoginAt : Option Nat
  createdAt : Nat
  updatedAt : Nat
deriving DecidableEq, Repr

/-- The JWT-related environment configuration fields from `env.ts` (the TTLs
are free-form duration strings). -/
structure AppConfig where
  JWT_ACCESS_SECRET : String
  JWT_REFRESH_SECRET : String
  JWT_ACCESS_TTL : String
  JWT_REFRESH_TTL : String
deriving DecidableEq

/-- Token kind tag from `JwtPayload` in `plugins/jwt.ts`. -/
inductive TokenType
  | access
  | refresh
deriving DecidableEq, Repr

/-- The signed claims (`JwtPayload` in `plugins/jwt.ts`). -/
structure JwtPayload where
  sub : String
  email : String
  orgId : Option String
  roleId : Option String
  designationId : Option String
  sessionId : String
  tokenType : TokenType
deriving DecidableEq, Repr

/-- A signed compact token, modelled as the signed payload together with the
secret and TTL it was signed under; decoding a token recovers exactly its
payload. -/
structure SignedToken where
  payload : JwtPayload
  secret : String
  expiresIn : String
deriving DecidableEq, Repr

/-- Models `app.jwt.sign(payload, { expiresIn, key })`. -/
def jwtSign (payload : JwtPayload) (secret : String) (expiresIn : String) :
    SignedToken :=
  { payload := payload, secret := secret, expiresIn := expiresIn }

/-- The user view in a successful login reply. -/
structure LoginUserView where
  id : String
  email : String
  status : UserStatus
  orgId : Option String
  roleId : Option String
  designationId : Option String
  mobileNumber : Option String
  lastLoginAt : Nat
deriving DecidableEq, Repr

/-- The successful login reply (`LoginReply`). -/
structure LoginReply where
  accessToken : SignedToken
  refreshToken : SignedToken
  user : LoginUserView
deriving DecidableEq, Repr

/-- Failure replies the login handler can produce: `reply.unauthorized(msg)`
or `reply.forbidden(msg)`. -/
inductive LoginError
  | unauthorized (message : String)
  | forbidden (message : String)
deriving DecidableEq, Repr

/-- The user lookup of the login handler: `findOne` on the exact trimmed
email, then — when that misses and the trimmed email is nonempty — `findOne`
with an anchored, escaped, case-insensitive pattern, i.e. case-insensitive
equality on the whole email. -/
def findUserByEmail (db : List UserDocument) (email : String) :
    Option UserDocument :=
  let trimmedEmail := jsTrim email
  match db.find? (fun u => u.email == trimmedEmail) with
  | some u => some u
  | none =>
    if trimmedEmail != "" then
      db.find? fun u => jsToLowerCase u.email == jsToLowerCase trimmedEmail
    else none

/-- Models the `POST /auth/login` handler of `auth.routes.ts`. Parameters
`bcryptCompare` (the password hasher comparison), `loginTime` (`new Date()`)
and `sessionId` (`randomUUID()`) stand for the handler's external effects.
The result carries the reply and the users collection after the call. -/
def login (db : List UserDocument) (config : AppConfig)
    (bcryptCompare : String → String → Bool)
    (loginTime : Nat) (sessionId : String)
    (email password : String) :
    Except LoginError LoginReply × List UserDocument :=
  match findUserByEmail db email with
  | none =>
    (Except.error (LoginError.unauthorized "Invalid email or password"), db)
  | some user =>
    if bcryptCompare password user.passwordHash then
      if user.status = UserStatus.active then
        let basePayload : TokenType → JwtPayload := fun tokenType =>
          { sub := user._id
            email := user.email
            orgId := user.orgId
            roleId := user.roleId
            designationId := user.designationId
            sessionId := sessionId
            tokenType := tokenType }
        let accessToken :=
          jwtSign (basePayload TokenType.access)
            config.JWT_ACCESS_SECRET config.JWT_ACCESS_TTL
        let refreshToken :=
          jwtSign (basePayload TokenType.refresh)
            config.JWT_REFRESH_SECRET config.JWT_REFRESH_TTL
        let newDb :=
          updateFirstBy (fun u => u._id) db user._id fun u =>
            { u with lastLoginAt := some loginTime, updatedAt := loginTime }
        (Except.ok
          { accessToken := accessToken
            refreshToken := refreshToken
            user :=
              { id := user._id
                email := user.email
                status := user.status
                orgId := user.orgId
                roleId := user.roleId
                designationId := user.designationId
                mobileNumber := user.mobileNumber
                lastLoginAt := loginTime } }, newDb)
      else
        (Except.error
          (LoginError.forbidden ("User is " ++ user.status.toString)), db)
    else
      (Except.error (LoginError.unauthorized "Invalid email or password"), db)

/-- Concrete organisation fixture for witnesses. -/
def demoOrg : OrganisationDocument :=
  { _id := "aaaaaaaaaaaa"
    name := "Acme"
    slug := "acme"
    status := OrganisationStatus.active
    createdAt := 0
    updatedAt := 0 }

/-- Second concrete organisation fixture for witnesses. -/
def demoOrg2 : OrganisationDocument :=
  { _id := "bbbbbbbbbbbb"
    name := "Beta"
    slug := "beta"
    status := OrganisationStatus.active
    createdAt := 0
    updatedAt := 0 }

/-- Concrete user fixture for witnesses. -/
def demoUser : UserDocument :=
  { _id := "u1"
    email := "a@b.c"
    passwordHash := "secret"
    status := UserStatus.active
    orgId := none
    roleId := none
    designationId := none
    mobileNumber := none
    lastLoginAt := none
    createdAt := 0
    updatedAt := 0 }

/-- Concrete invited-status user fixture for witnesses. -/
def demoInvitedUser : UserDocument :=
  { demoUser with status := UserStatus.invited }

/-- Concrete configuration fixture for witnesses. -/
def demoConfig : AppConfig :=
  { JWT_ACCESS_SECRET := "as"
    JWT_REFRESH_SECRET := "rs"
    JWT_ACCESS_TTL := "15m"
    JWT_REFRESH_TTL := "7d" }

/-- Concrete hash comparison fixture for witnesses: plain equality. -/
def demoCompare : String → String → Bool := fun p h => p == h

/-! Helper lemmas. -/

theorem dropWhile_eq_self_of {p : α → Bool} {l : List α}
    (h : ∀ c ∈ l, p c = false) : l.dropWhile p = l := by
  cases l with
  | nil => rfl
  | cons a l => simp [List.dropWhile_cons, h a (List.mem_cons_self a l)]

theorem map_eq_self_of {f : α → α} {l : List α}
    (h : ∀ c ∈ l, f c = c) : l.map f = l := by
  induction l with
  | nil => rfl
  | cons a l ih =>
    simp only [List.map_cons, h a (List.mem_cons_self a l),
      ih fun c hc => h c (List.mem_cons_of_mem a hc)]

theorem jsTrim_eq_self {s : String}
    (h : ∀ c ∈ s.data, isJsWhitespace c = false) : jsTrim s = s := by
  unfold jsTrim jsTrimChars
  rw [dropWhile_eq_self_of h,
    dropWhile_eq_self_of fun c hc => h c (List.mem_reverse.mp hc),
    List.reverse_reverse]

theorem jsToLowerCase_eq_self {s : String}
    (h : ∀ c ∈ s.data, Char.toLower c = c) : jsToLowerCase s = s := by
  unfold jsToLowerCase
  rw [map_eq_self_of h]

theorem slugPatternAux_chars {l : List Char} {b : Bool}
    (h : slugPatternAux l b = true) :
    ∀ c ∈ l, isKebabChar c = true ∨ c = '-' := by
  induction l generalizing b with
  | nil => simp
  | cons a l ih =>
    intro c hc
    unfold slugPatternAux at h
    cases hk : isKebabChar a with
    | true =>
      rw [if_pos hk] at h
      rcases List.mem_cons.mp hc with rfl | hc
      · exact Or.inl hk
      · exact ih h c hc
    | false =>
      rw [if_neg (by simp [hk])] at h
      cases hd : (a == '-') with
      | true =>
        rw [if_pos hd] at h
        rcases List.mem_cons.mp hc with rfl | hc
        · exact Or.inr (by simpa using hd)
        · exact ih ((Bool.and_eq_true _ _).mp h).2 c hc
      | false =>
        rw [if_neg (by simp [hd])] at h
        exact absurd h (by simp)

theorem toLower_eq_self_of_kebab {c : Char}
    (h : isKebabChar c = true ∨ c = '-') : Char.toLower c = c := by
  rcases h with h | rfl
  · simp only [isKebabChar, Bool.or_eq_true, Bool.and_eq_true,
      decide_eq_true_eq] at h
    unfold Char.toLower
    rw [if_neg]
    simp only [Bool.and_eq_true, decide_eq_true_eq, ge_iff_le, not_and]
    omega
  · decide

theorem not_ws_of_kebab {c : Char}
    (h : isKebabChar c = true ∨ c = '-') : isJsWhitespace c = false := by
  rcases h with h | rfl
  · simp only [isKebabChar, Bool.or_eq_true, Bool.and_eq_true,
      decide_eq_true_eq] at h
    simp only [isJsWhitespace, Bool.or_eq_false_iff, beq_eq_false_iff_ne,
      ne_eq]
    omega
  · decide

theorem normaliseSlug_eq_self {s : String}
    (h : matchesSlugPattern s = true) : normaliseSlug s = s := by
  have hc := slugPatternAux_chars (l := s.data) (b := false) h
  unfold normaliseSlug
  rw [jsTrim_eq_self fun c hmem => not_ws_of_kebab (hc c hmem)]
  exact jsToLowerCase_eq_self fun c hmem => toLower_eq_self_of_kebab (hc c hmem)

theorem find?_split {p : α → Bool} {l : List α} {a : α}
    (h : l.find? p = some a) :
    ∃ l1 l2, l = l1 ++ a :: l2 ∧ ∀ x ∈ l1, p x = false := by
  induction l with
  | nil => exact absurd h (by simp)
  | cons b l ih =>
    cases hb : p b with
    | true =>
      simp only [List.find?_cons, hb, Option.some_inj] at h
      subst h
      exact ⟨[], l, rfl, by simp⟩
    | false =>
      simp only [List.find?_cons, hb] at h
      obtain ⟨l1, l2, rfl, hl1⟩ := ih h
      refine ⟨b :: l1, l2, rfl, ?_⟩
      intro x hx
      rcases List.mem_cons.mp hx with rfl | hx
      · exact hb
      · exact hl1 x hx

theorem updateFirstBy_append (key : α → String) (f : α → α) {l1 : List α}
    {a : α} {l2 : List α} {id : String}
    (h1 : ∀ x ∈ l1, (key x == id) = false) (ha : key a = id) :
    updateFirstBy key (l1 ++ a :: l2) id f = l1 ++ f a :: l2 := by
  induction l1 with
  | nil => simp [updateFirstBy, ha]
  | cons b l1 ih =>
    simp only [List.cons_append, updateFirstBy,
      h1 b (List.mem_cons_self b l1), Bool.false_eq_true, if_neg,
      List.cons.injEq, true_and]
    rw [if_neg (by simp [h1 b (List.mem_cons_self b l1)])]
    simp only [List.cons.injEq, true_and]
    exact ih fun x hx => h1 x (List.mem_cons_of_mem b hx)

theorem deleteFirstBy_append (key : α → String) {l1 : List α} {a : α}
    {l2 : List α} {id : String}
    (h1 : ∀ x ∈ l1, (key x == id) = false) (ha : key a = id) :
    deleteFirstBy key (l1 ++ a :: l2) id = l1 ++ l2 := by
  induction l1 with
  | nil => simp [deleteFirstBy, ha]
  | cons b l1 ih =>
    simp only [List.cons_append, deleteFirstBy]
    rw [if_neg (by simp [h1 b (List.mem_cons_self b l1)])]
    simp only [List.cons.injEq, true_and]
    exact ih fun x hx => h1 x (List.mem_cons_of_mem b hx)

theorem findBySlug_some {db : List OrganisationDocument} {slug : String}
    {o : OrganisationDocument}
    (h : OrganisationRepository.findBySlug db slug = some o) :
    o ∈ db ∧ o.slug = slug :=
  ⟨List.mem_of_find?_eq_some h, by simpa using List.find?_some h⟩

theorem findBySlug_eq_none_iff {db : List OrganisationDocument}
    {slug : String} :
    OrganisationRepository.findBySlug db slug = none ↔
      ∀ o ∈ db, o.slug ≠ slug := by
  unfold OrganisationRepository.findBySlug
  rw [List.find?_eq_none]
  simp

theorem findById_some {db : List OrganisationDocument} {id : String}
    {o : OrganisationDocument}
    (h : OrganisationRepository.findById db id = some o) :
    o ∈ db ∧ o._id = id :=
  ⟨List.mem_of_find?_eq_some h, by simpa using List.find?_some h⟩

theorem findById_eq_none_iff {db : List OrganisationDocument} {id : String} :
    OrganisationRepository.findById db id = none ↔ ∀ o ∈ db, o._id ≠ id := by
  unfold OrganisationRepository.findById
  rw [List.find?_eq_none]
  simp

/-! Claim theorems. -/

/-- C1: for every create call whose input passes validation, the returned
view's slug is the trimmed lowercased input slug and its name the trimmed
input name; the call fails with the slug-taken error exactly when some
existing organisation already holds the normalised slug; the stored status is
the input status, defaulting to active; and the returned creation and update
stamps coincide. -/
theorem create_spec (db : List OrganisationDocument) (freshId : String)
    (now : Nat) (input : CreateOrganisationInput)
    (_hvalid : validCreateInput input = true) :
    (∀ resp db2,
        OrganisationService.create db freshId now input =
          Except.ok (resp, db2) →
        resp.slug = jsToLowerCase (jsTrim input.slug) ∧
        resp.name = jsTrim input.name ∧
        ∃ doc, db2 = db ++ [doc] ∧ resp = toOrganisationResponse doc ∧
          doc.status = input.status.getD OrganisationStatus.active ∧
          resp.createdAt = resp.updatedAt) ∧
    (OrganisationService.create db freshId now input =
        Except.error OrganisationError.slugTaken ↔
      ∃ o ∈ db, o.slug = normaliseSlug input.slug) := by
  simp only [OrganisationService.create]
  cases hfind : OrganisationRepository.findBySlug db (normaliseSlug input.slug) with
  | some o =>
    constructor
    · intro resp db2 h
      exact absurd h (by simp)
    · simp only [true_iff]
      exact ⟨o, (findBySlug_some hfind).1, (findBySlug_some hfind).2⟩
  | none =>
    constructor
    · intro resp db2 h
      simp only [Except.ok.injEq, Prod.mk.injEq] at h
      obtain ⟨hresp, hdb2⟩ := h
      subst hresp
      subst hdb2
      refine ⟨rfl, rfl, ?_⟩
      exact ⟨_, rfl, rfl, rfl, rfl⟩
    · constructor
      · intro h
        exact absurd h (by simp)
      · intro ⟨o, hmem, hslug⟩
        exact absurd hfind (by
          rw [findBySlug_eq_none_iff]
          push_neg
          exact ⟨o, hmem, hslug⟩)

/-- Witness for C1: a concrete validated create on the empty collection
succeeds and returns the normalised slug. -/
theorem create_spec_witness :
    ∃ resp db2,
      OrganisationService.create [] "aaaaaaaaaaaa" 7
          { name := " Acme ", slug := "acme", status := none } =
        Except.ok (resp, db2) ∧
      resp.slug = jsToLowerCase (jsTrim "acme") :=
  ⟨_, _, rfl,
    ((create_spec [] "aaaaaaaaaaaa" 7
        { name := " Acme ", slug := "acme", status := none }
        (by decide)).1 _ _ rfl).1⟩

/-- C2: a login whose submitted email matches no stored user and a login
whose matched user's password fails the hash comparison produce the same
unauthorized reply with the same message. -/
theorem login_failure_indistinguishable
    (db1 db2 : List UserDocument) (cfg1 cfg2 : AppConfig)
    (cmp1 cmp2 : String → String → Bool) (t1 t2 : Nat) (sid1 sid2 : String)
    (e1 p1 e2 p2 : String) (u : UserDocument)
    (h1 : findUserByEmail db1 e1 = none)
    (h2 : findUserByEmail db2 e2 = some u)
    (h3 : cmp2 p2 u.passwordHash = false) :
    (login db1 cfg1 cmp1 t1 sid1 e1 p1).1 =
      (login db2 cfg2 cmp2 t2 sid2 e2 p2).1 ∧
    (login db1 cfg1 cmp1 t1 sid1 e1 p1).1 =
      Except.error (LoginError.unauthorized "Invalid email or password") := by
  have hl1 : login db1 cfg1 cmp1 t1 sid1 e1 p1 =
      (Except.error (LoginError.unauthorized "Invalid email or password"),
        db1) := by
    unfold login
    rw [h1]
  have hl2 : login db2 cfg2 cmp2 t2 sid2 e2 p2 =
      (Except.error (LoginError.unauthorized "Invalid email or password"),
        db2) := by
    unfold login
    rw [h2]
    simp [h3]
  rw [hl1, hl2]
  exact ⟨rfl, rfl⟩

/-- Witness for C2: the empty store versus a one-user store with a wrong
password yield the same unauthorized reply. -/
theorem login_failure_indistinguishable_witness :
    (login [] demoConfig demoCompare 1 "s1" "x@y.z" "pw").1 =
      (login [demoUser] demoConfig demoCompare 2 "s2" "a@b.c" "wrong").1 :=
  (login_failure_indistinguishable [] [demoUser] demoConfig demoConfig
    demoCompare demoCompare 1 2 "s1" "s2" "x@y.z" "pw" "a@b.c" "wrong"
    demoUser (by decide) (by decide) (by decide)).1

/-- Shape of every successful login: it arises from a matched user with a
passing hash comparison and active status; the reply carries the two tokens
signed from the shared payload under the respective secret and TTL together
with the user view; the collection is rewritten at the user's record with the
refreshed stamps. -/
theorem login_success_shape {db : List UserDocument} {cfg : AppConfig}
    {cmp : String → String → Bool} {t : Nat} {sid : String} {e p : String}
    {r : LoginReply} {db2 : List UserDocument}
    (h : login db cfg cmp t sid e p = (Except.ok r, db2)) :
    ∃ u, findUserByEmail db e = some u ∧ cmp p u.passwordHash = true ∧
      u.status = UserStatus.active ∧
      r = { accessToken :=
              jwtSign
                { sub := u._id, email := u.email, orgId := u.orgId,
                  roleId := u.roleId, designationId := u.designationId,
                  sessionId := sid, tokenType := TokenType.access }
                cfg.JWT_ACCESS_SECRET cfg.JWT_ACCESS_TTL
            refreshToken :=
              jwtSign
                { sub := u._id, email := u.email, orgId := u.orgId,
                  roleId := u.roleId, designationId := u.designationId,
                  sessionId := sid, tokenType := TokenType.refresh }
                cfg.JWT_REFRESH_SECRET cfg.JWT_REFRESH_TTL
            user :=
              { id := u._id, email := u.email, status := u.status,
                orgId := u.orgId, roleId := u.roleId,
                designationId := u.designationId,
                mobileNumber := u.mobileNumber, lastLoginAt := t } } ∧
      db2 = updateFirstBy (fun v => v._id) db u._id fun v =>
        { v with lastLoginAt := some t, updatedAt := t } := by
  unfold login at h
  cases hfind : findUserByEmail db e with
  | none =>
    rw [hfind] at h
    exact absurd h (by simp)
  | some u =>
    rw [hfind] at h
    refine ⟨u, rfl, ?_⟩
    cases hcmp : cmp p u.passwordHash with
    | false => simp [hcmp] at h
    | true =>
      by_cases hstatus : u.status = UserStatus.active
      · simp only [hcmp, hstatus, if_pos, if_true, Prod.mk.injEq,
          Except.ok.injEq] at h
        refine ⟨rfl, hstatus, ?_, h.2.symm⟩
        rw [hstatus]
        exact h.1.symm
      · simp [hcmp, hstatus] at h

/-- C3: with a matched user, a successful hash comparison and a non-active
status yield a forbidden reply whose message contains the concrete status
value; a login only completes for active users; and a failed comparison
yields the unauthorized reply regardless of status. -/
theorem login_status_gate
    (db : List UserDocument) (cfg : AppConfig) (cmp : String → String → Bool)
    (t : Nat) (sid : String) (e p : String) (u : UserDocument)
    (hfind : findUserByEmail db e = some u) :
    (cmp p u.passwordHash = true → u.status ≠ UserStatus.active →
      (login db cfg cmp t sid e p).1 =
        Except.error
          (LoginError.forbidden ("User is " ++ u.status.toString)) ∧
      ∃ a b, "User is " ++ u.status.toString =
        a ++ u.status.toString ++ b) ∧
    (∀ r db2, login db cfg cmp t sid e p = (Except.ok r, db2) →
      u.status = UserStatus.active ∧ r.user.status = UserStatus.active) ∧
    (cmp p u.passwordHash = false →
      (login db cfg cmp t sid e p).1 =
        Except.error (LoginError.unauthorized "Invalid email or password")) := by
  refine ⟨?_, ?_, ?_⟩
  · intro hcmp hstatus
    have hl : (login db cfg cmp t sid e p).1 =
        Except.error
          (LoginError.forbidden ("User is " ++ u.status.toString)) := by
      unfold login
      rw [hfind]
      simp [hcmp, hstatus]
    exact ⟨hl, "User is ", "", by simp⟩
  · intro r db2 h
    obtain ⟨u2, hfind2, _, hstatus2, hr, _⟩ := login_success_shape h
    rw [hfind] at hfind2
    cases hfind2
    refine ⟨hstatus2, ?_⟩
    rw [hr]
    exact hstatus2
  · intro hcmp
    unfold login
    rw [hfind]
    simp [hcmp]

/-- Witness for C3: correct email and password but status invited fails
forbidden with the status value in the message. -/
theorem login_status_gate_witness :
    (login [demoInvitedUser] demoConfig demoCompare 2 "s2"
        "a@b.c" "secret").1 =
      Except.error (LoginError.forbidden ("User is " ++
        UserStatus.invited.toString)) :=
  ((login_status_gate [demoInvitedUser] demoConfig demoCompare 2 "s2"
      "a@b.c" "secret" demoInvitedUser (by decide)).1 (by decide)
    (by decide)).1

/-- C4: every successful login returns an access token and a refresh token
whose payloads share the fresh session identifier and the user's id as
subject, differ in token kind, and are signed under the access and refresh
secret and TTL respectively (distinct whenever the configured values are). -/
theorem login_token_pair (db : List UserDocument) (cfg : AppConfig)
    (cmp : String → String → Bool) (t : Nat) (sid : String) (e p : String)
    (r : LoginReply) (db2 : List UserDocument)
    (h : login db cfg cmp t sid e p = (Except.ok r, db2)) :
    r.accessToken.payload.sessionId = sid ∧
    r.refreshToken.payload.sessionId = sid ∧
    (∃ u, findUserByEmail db e = some u ∧
      r.accessToken.payload.sub = u._id ∧
      r.refreshToken.payload.sub = u._id) ∧
    r.accessToken.payload.tokenType = TokenType.access ∧
    r.refreshToken.payload.tokenType = TokenType.refresh ∧
    r.accessToken.secret = cfg.JWT_ACCESS_SECRET ∧
    r.refreshToken.secret = cfg.JWT_REFRESH_SECRET ∧
    r.accessToken.expiresIn = cfg.JWT_ACCESS_TTL ∧
    r.refreshToken.expiresIn = cfg.JWT_REFRESH_TTL ∧
    (cfg.JWT_ACCESS_SECRET ≠ cfg.JWT_REFRESH_SECRET →
      r.accessToken.secret ≠ r.refreshToken.secret) ∧
    (cfg.JWT_ACCESS_TTL ≠ cfg.JWT_REFRESH_TTL →
      r.accessToken.expiresIn ≠ r.refreshToken.expiresIn) := by
  obtain ⟨u, hfind, _, _, hr, _⟩ := login_success_shape h
  subst hr
  refine ⟨rfl, rfl, ⟨u, hfind, rfl, rfl⟩, rfl, rfl, rfl, rfl, rfl, rfl,
    ?_, ?_⟩
  · intro hne
    simpa [jwtSign] using hne
  · intro hne
    simpa [jwtSign] using hne

/-- Witness for C4: a concrete successful login whose tokens share the fresh
session identifier. -/
theorem login_token_pair_witness :
    ∃ r db2,
      login [demoUser] demoConfig demoCompare 5 "sess" "a@b.c" "secret" =
        (Except.ok r, db2) ∧
      r.accessToken.payload.sessionId = "sess" :=
  ⟨_, _, rfl, (login_token_pair [demoUser] demoConfig demoCompare 5 "sess"
    "a@b.c" "secret" _ _ rfl).1⟩

theorem parseObjectId_invalid {id : String}
    (h : ObjectId.isValid id = false) :
    parseObjectId id = Except.error OrganisationError.invalidId := by
  unfold parseObjectId
  rw [if_neg (by simp [h])]

theorem parseObjectId_valid {id : String} (h : ObjectId.isValid id = true) :
    parseObjectId id = Except.ok id := by
  unfold parseObjectId
  rw [if_pos h]

theorem getById_invalid {db : List OrganisationDocument} {id : String}
    (h : ObjectId.isValid id = false) :
    OrganisationService.getById db id =
      Except.error OrganisationError.invalidId := by
  unfold OrganisationService.getById
  rw [parseObjectId_invalid h]

theorem update_invalid {dbL dbW : List OrganisationDocument} {now : Nat}
    {id : String} {input : UpdateOrganisationInput}
    (h : ObjectId.isValid id = false) :
    OrganisationService.update dbL dbW now id input =
      Except.error OrganisationError.invalidId := by
  unfold OrganisationService.update
  rw [parseObjectId_invalid h]

theorem delete_invalid {db : List OrganisationDocument} {id : String}
    (h : ObjectId.isValid id = false) :
    OrganisationService.delete db id =
      Except.error OrganisationError.invalidId := by
  unfold OrganisationService.delete
  rw [parseObjectId_invalid h]

theorem getById_notFound {db : List OrganisationDocument} {id : String}
    (hv : ObjectId.isValid id = true)
    (hn : OrganisationRepository.findById db id = none) :
    OrganisationService.getById db id =
      Except.error OrganisationError.notFound := by
  simp only [OrganisationService.getById, parseObjectId_valid hv, hn]

theorem update_notFound_load {dbL dbW : List OrganisationDocument}
    {now : Nat} {id : String} {input : UpdateOrganisationInput}
    (hv : ObjectId.isValid id = true)
    (hn : OrganisationRepository.findById dbL id = none) :
    OrganisationService.update dbL dbW now id input =
      Except.error OrganisationError.notFound := by
  simp only [OrganisationService.update, parseObjectId_valid hv, hn]

theorem delete_notFound {db : List OrganisationDocument} {id : String}
    (hv : ObjectId.isValid id = true)
    (hn : OrganisationRepository.findById db id = none) :
    OrganisationService.delete db id =
      Except.error OrganisationError.notFound := by
  have hany : db.any (fun o => o._id == id) = false := by
    rw [List.any_eq_false]
    intro o ho
    have := (findById_eq_none_iff.mp hn) o ho
    simpa using this
  simp only [OrganisationService.delete, parseObjectId_valid hv,
    OrganisationRepository.deleteById, hany]

/-- C5: a malformed id string makes getById, update and delete fail with the
invalid-id error (never not-found), and a well-formed id that resolves to no
stored organisation makes them fail with not-found (never invalid-id). -/
theorem id_error_taxonomy (db dbW : List OrganisationDocument) (now : Nat)
    (id : String) (input : UpdateOrganisationInput) :
    (ObjectId.isValid id = false →
      OrganisationService.getById db id =
        Except.error OrganisationError.invalidId ∧
      OrganisationService.update db dbW now id input =
        Except.error OrganisationError.invalidId ∧
      OrganisationService.delete db id =
        Except.error OrganisationError.invalidId) ∧
    (ObjectId.isValid id = true →
      OrganisationRepository.findById db id = none →
      OrganisationService.getById db id =
        Except.error OrganisationError.notFound ∧
      OrganisationService.update db dbW now id input =
        Except.error OrganisationError.notFound ∧
      OrganisationService.delete db id =
        Except.error OrganisationError.notFound) := by
  constructor
  · intro h
    exact ⟨getById_invalid h, update_invalid h, delete_invalid h⟩
  · intro hv hn
    exact ⟨getById_notFound hv hn, update_notFound_load hv hn,
      delete_notFound hv hn⟩

/-- Witness for C5: a malformed id fails invalid-id; an unassigned
well-formed id fails not-found. -/
theorem id_error_taxonomy_witness :
    OrganisationService.getById [] "not-a-valid-id-format" =
      Except.error OrganisationError.invalidId ∧
    OrganisationService.getById [] "0123456789abcdef01234567" =
      Except.error OrganisationError.notFound :=
  ⟨((id_error_taxonomy [] [] 0 "not-a-valid-id-format"
      ⟨none, none, none⟩).1 (by decide)).1,
    ((id_error_taxonomy [] [] 0 "0123456789abcdef01234567"
      ⟨none, none, none⟩).2 (by decide) (by decide)).1⟩

/-- C10: every string of exactly 12 characters passes the identity
validation, so when it names no stored organisation the calls fail with
not-found rather than the invalid-id error, even for non-hex strings. -/
theorem twelve_char_id_wellformed (s : String)
    (db dbW : List OrganisationDocument) (now : Nat)
    (input : UpdateOrganisationInput) (h12 : s.length = 12)
    (hn : OrganisationRepository.findById db s = none) :
    ObjectId.isValid s = true ∧
    OrganisationService.getById db s =
      Except.error OrganisationError.notFound ∧
    OrganisationService.update db dbW now s input =
      Except.error OrganisationError.notFound ∧
    OrganisationService.delete db s =
      Except.error OrganisationError.notFound := by
  have hv : ObjectId.isValid s = true := by
    unfold ObjectId.isValid
    simp [h12]
  exact ⟨hv, getById_notFound hv hn, update_notFound_load hv hn,
    delete_notFound hv hn⟩

/-- Witness for C10: a 12-character non-hex string is accepted and misses. -/
theorem twelve_char_id_wellformed_witness :
    ObjectId.isValid "not-valid-id" = true ∧
    OrganisationService.getById [] "not-valid-id" =
      Except.error OrganisationError.notFound :=
  ⟨(twelve_char_id_wellformed "not-valid-id" [] [] 0 ⟨none, none, none⟩
      (by decide) (by decide)).1,
    (twelve_char_id_wellformed "not-valid-id" [] [] 0 ⟨none, none, none⟩
      (by decide) (by decide)).2.1⟩

theorem parseObjectId_ok {id oid : String}
    (h : parseObjectId id = Except.ok oid) : oid = id := by
  unfold parseObjectId at h
  by_cases hv : ObjectId.isValid id
  · rw [if_pos hv] at h
    simp only [Except.ok.injEq] at h
    exact h.symm
  · rw [if_neg hv] at h
    exact absurd h (by simp)

theorem slugChangeConflict_iff {db : List OrganisationDocument}
    {org : OrganisationDocument} {slugInput : Option String} :
    OrganisationService.slugChangeConflict db org slugInput = true ↔
      ∃ s existing, slugInput = some s ∧ normaliseSlug s ≠ org.slug ∧
        OrganisationRepository.findBySlug db (normaliseSlug s) =
          some existing ∧
        existing._id ≠ org._id := by
  cases slugInput with
  | none => simp [OrganisationService.slugChangeConflict]
  | some s =>
    simp only [OrganisationService.slugChangeConflict]
    by_cases heq : normaliseSlug s = org.slug
    · rw [if_pos (by simp [heq])]
      simp [heq]
    · rw [if_neg (by simp [heq])]
      cases hf : OrganisationRepository.findBySlug db (normaliseSlug s) with
      | none => simp [hf, heq]
      | some ex => simp [hf, heq, bne_iff_ne]

/-- C6: on an update of an existing organisation, a supplied slug that
normalises to the record's current slug can never fail with the slug-taken
error; and the failure occurs exactly when the normalised supplied slug
differs from the current one and some organisation with a different identity
already holds it. -/
theorem update_slug_noop (db dbW : List OrganisationDocument) (now : Nat)
    (id : String) (input : UpdateOrganisationInput)
    (org : OrganisationDocument)
    (hv : ObjectId.isValid id = true)
    (hfound : OrganisationRepository.findById db id = some org) :
    ((∀ s, input.slug = some s → normaliseSlug s = org.slug) →
      OrganisationService.update db dbW now id input ≠
        Except.error OrganisationError.slugTaken) ∧
    (OrganisationService.update db dbW now id input =
        Except.error OrganisationError.slugTaken ↔
      ∃ s existing, input.slug = some s ∧ normaliseSlug s ≠ org.slug ∧
        OrganisationRepository.findBySlug db (normaliseSlug s) =
          some existing ∧
        existing._id ≠ org._id) := by
  have hmain : OrganisationService.update db dbW now id input =
      Except.error OrganisationError.slugTaken ↔
      OrganisationService.slugChangeConflict db org input.slug = true := by
    simp only [OrganisationService.update, parseObjectId_valid hv, hfound]
    cases hc : OrganisationService.slugChangeConflict db org input.slug with
    | true => simp
    | false =>
      simp only [Bool.false_eq_true, if_false]
      cases hup : OrganisationRepository.updateById dbW org._id
          { name := input.name.map normaliseName
            slug := input.slug.map normaliseSlug
            status := input.status
            updatedAt := now } with
      | mk found db2 =>
        cases found with
        | none => simp
        | some updated => simp
  constructor
  · intro hnoop hcontra
    obtain ⟨s, existing, hs, hne, _, _⟩ :=
      slugChangeConflict_iff.mp (hmain.mp hcontra)
    exact hne (hnoop s hs)
  · exact hmain.trans slugChangeConflict_iff

/-- Witness for C6: resubmitting the record's own slug does not fail with
the slug-taken error. -/
theorem update_slug_noop_witness :
    OrganisationService.update [demoOrg] [demoOrg] 3 "aaaaaaaaaaaa"
        { name := none, slug := some "acme", status := none } ≠
      Except.error OrganisationError.slugTaken :=
  (update_slug_noop [demoOrg] [demoOrg] 3 "aaaaaaaaaaaa"
      { name := none, slug := some "acme", status := none } demoOrg
      (by decide) (by decide)).1
    (by intro s hs; cases hs; decide)

theorem findUserByEmail_mem {db : List UserDocument} {e : String}
    {u : UserDocument} (h : findUserByEmail db e = some u) : u ∈ db := by
  simp only [findUserByEmail] at h
  cases hf : db.find? (fun v => v.email == jsTrim e) with
  | some w =>
    rw [hf] at h
    simp only [Option.some_inj] at h
    subst h
    exact List.mem_of_find?_eq_some hf
  | none =>
    rw [hf] at h
    by_cases hne : jsTrim e ≠ ""
    · rw [if_pos (by simpa using hne)] at h
      exact List.mem_of_find?_eq_some h
    · rw [if_neg (by simpa using hne)] at h
      exact absurd h (by simp)

/-- C7: with distinct stored user ids, every failed login leaves the user
collection unchanged, and every successful login changes exactly the matched
user's record, setting only its last-login and updated-at stamps to the
login instant. -/
theorem login_write_effects (db : List UserDocument) (cfg : AppConfig)
    (cmp : String → String → Bool) (t : Nat) (sid : String) (e p : String)
    (hids : (db.map fun u => u._id).Nodup) :
    (∀ err db2, login db cfg cmp t sid e p = (Except.error err, db2) →
      db2 = db) ∧
    (∀ r db2, login db cfg cmp t sid e p = (Except.ok r, db2) →
      ∃ u l1 l2, findUserByEmail db e = some u ∧ db = l1 ++ u :: l2 ∧
        db2 = l1 ++
          { u with lastLoginAt := some t, updatedAt := t } :: l2) := by
  constructor
  · intro err db2 h
    unfold login at h
    cases hfind : findUserByEmail db e with
    | none =>
      rw [hfind] at h
      simp only [Prod.mk.injEq] at h
      exact h.2.symm
    | some u =>
      rw [hfind] at h
      cases hcmp : cmp p u.passwordHash with
      | true =>
        by_cases hstatus : u.status = UserStatus.active
        · simp [hcmp, hstatus] at h
        · simp only [hcmp, hstatus, if_true, if_false, if_neg,
            Prod.mk.injEq] at h
          exact h.2.symm
      | false =>
        simp only [hcmp, Bool.false_eq_true, if_false, if_neg,
          Prod.mk.injEq] at h
        exact h.2.symm
  · intro r db2 h
    obtain ⟨u, hfind, _, _, _, hdb2⟩ := login_success_shape h
    have hmem : u ∈ db := findUserByEmail_mem hfind
    obtain ⟨l1, l2, rfl⟩ := List.append_of_mem hmem
    refine ⟨u, l1, l2, hfind, rfl, ?_⟩
    have hnotin : ∀ x ∈ l1, (x._id == u._id) = false := by
      intro x hx
      have hmap : ((l1 ++ u :: l2).map fun v => v._id).Nodup := hids
      rw [List.map_append, List.map_cons] at hmap
      have hnm := (List.nodup_cons.mp (List.nodup_middle.mp hmap)).1
      simp only [beq_eq_false_iff_ne, ne_eq]
      intro hxe
      refine hnm ?_
      rw [List.mem_append]
      exact Or.inl (List.mem_map.mpr ⟨x, hx, hxe⟩)
    rw [hdb2]
    exact updateFirstBy_append (fun v : UserDocument => v._id)
      (fun v => { v with lastLoginAt := some t, updatedAt := t }) hnotin rfl

/-- Witness for C7: a failed login on the empty collection leaves it
unchanged. -/
theorem login_write_effects_witness :
    (login [] demoConfig demoCompare 1 "s" "x@y.z" "pw").2 =
      ([] : List UserDocument) :=
  (login_write_effects [] demoConfig demoCompare 1 "s" "x@y.z" "pw"
    (by decide)).1 _ _ rfl

/-- C8: an update always refreshes the update stamp to the call instant;
fields not supplied keep the stored value; a record absent at load time, or
absent at write time after a conflict-free load, fails with not-found. -/
theorem update_frame (dbL dbW : List OrganisationDocument) (now : Nat)
    (id : String) (input : UpdateOrganisationInput)
    (hv : ObjectId.isValid id = true) :
    (OrganisationRepository.findById dbL id = none →
      OrganisationService.update dbL dbW now id input =
        Except.error OrganisationError.notFound) ∧
    (∀ org, OrganisationRepository.findById dbL id = some org →
      OrganisationService.slugChangeConflict dbL org input.slug = false →
      OrganisationRepository.findById dbW org._id = none →
      OrganisationService.update dbL dbW now id input =
        Except.error OrganisationError.notFound) ∧
    (∀ resp db2,
      OrganisationService.update dbL dbW now id input =
        Except.ok (resp, db2) →
      resp.updatedAt = now ∧
      ∀ org current, OrganisationRepository.findById dbL id = some org →
        OrganisationRepository.findById dbW org._id = some current →
        (input.name = none → resp.name = current.name) ∧
        (input.slug = none → resp.slug = current.slug) ∧
        (input.status = none → resp.status = current.status) ∧
        resp.createdAt = current.createdAt) := by
  refine ⟨update_notFound_load hv, ?_, ?_⟩
  · intro org hfound hconf hnone
    simp only [OrganisationService.update, parseObjectId_valid hv, hfound,
      hconf, Bool.false_eq_true, if_false,
      OrganisationRepository.updateById, hnone]
  · intro resp db2 h
    simp only [OrganisationService.update, parseObjectId_valid hv] at h
    cases hfound : OrganisationRepository.findById dbL id with
    | none =>
      rw [hfound] at h
      exact absurd h (by simp)
    | some org =>
      rw [hfound] at h
      cases hconf : OrganisationService.slugChangeConflict dbL org
          input.slug with
      | true =>
        simp only [hconf, if_true] at h
        exact absurd h (by simp)
      | false =>
        simp only [hconf, Bool.false_eq_true, if_false,
          OrganisationRepository.updateById] at h
        cases hw : OrganisationRepository.findById dbW org._id with
        | none =>
          rw [hw] at h
          exact absurd h (by simp)
        | some current =>
          rw [hw] at h
          simp only [Except.ok.injEq, Prod.mk.injEq] at h
          obtain ⟨hresp, _⟩ := h
          subst hresp
          refine ⟨rfl, ?_⟩
          intro org2 current2 hfound2 hw2
          have horg : org2 = org := (Option.some_inj.mp hfound2).symm
          subst horg
          have hcur : current2 = current :=
            (Option.some_inj.mp (hw.symm.trans hw2)).symm
          subst hcur
          refine ⟨?_, ?_, ?_, rfl⟩
          · intro hn
            simp [toOrganisationResponse, applySet, hn]
          · intro hn
            simp [toOrganisationResponse, applySet, hn]
          · intro hn
            simp [toOrganisationResponse, applySet, hn]

/-- Witness for C8: an all-empty update of an existing record succeeds and
carries the refreshed update stamp. -/
theorem update_frame_witness :
    ∃ resp db2,
      OrganisationService.update [demoOrg] [demoOrg] 9 "aaaaaaaaaaaa"
          { name := none, slug := none, status := none } =
        Except.ok (resp, db2) ∧
      resp.updatedAt = 9 :=
  ⟨_, _, rfl, ((update_frame [demoOrg] [demoOrg] 9 "aaaaaaaaaaaa"
    { name := none, slug := none, status := none }
    (by decide)).2.2 _ _ rfl).1⟩

theorem goodState_append {db : List OrganisationDocument}
    {doc : OrganisationDocument} (hg : GoodState db)
    (hidf : doc._id ∉ db.map fun o => o._id)
    (hslugf : ∀ o ∈ db, o.slug ≠ doc.slug)
    (hp : matchesSlugPattern doc.slug = true) :
    GoodState (db ++ [doc]) := by
  obtain ⟨hid, hslug, hpat⟩ := hg
  refine ⟨?_, ?_, ?_⟩
  · rw [List.map_append, List.nodup_append]
    refine ⟨hid, by simp, ?_⟩
    intro a ha hb
    simp only [List.map_cons, List.map_nil, List.mem_singleton] at hb
    subst hb
    exact hidf ha
  · rw [List.map_append, List.nodup_append]
    refine ⟨hslug, by simp, ?_⟩
    intro a ha hb
    simp only [List.map_cons, List.map_nil, List.mem_singleton] at hb
    subst hb
    obtain ⟨o, ho, hoslug⟩ := List.mem_map.mp ha
    exact hslugf o ho hoslug
  · intro o ho
    rcases List.mem_append.mp ho with hmem | hmem
    · exact hpat o hmem
    · simp only [List.mem_singleton] at hmem
      subst hmem
      exact hp

theorem goodState_replace {l1 l2 : List OrganisationDocument}
    {org org' : OrganisationDocument} (hg : GoodState (l1 ++ org :: l2))
    (hidkeep : org'._id = org._id)
    (hslugcase : org'.slug = org.slug ∨
      (matchesSlugPattern org'.slug = true ∧
        ∀ o ∈ l1 ++ org :: l2, o.slug ≠ org'.slug)) :
    GoodState (l1 ++ org' :: l2) := by
  obtain ⟨hid, hslug, hpat⟩ := hg
  refine ⟨?_, ?_, ?_⟩
  · rw [List.map_append, List.map_cons, hidkeep]
    rw [List.map_append, List.map_cons] at hid
    exact hid
  · rcases hslugcase with heq | ⟨_, hnot⟩
    · rw [List.map_append, List.map_cons, heq]
      rw [List.map_append, List.map_cons] at hslug
      exact hslug
    · rw [List.map_append, List.map_cons] at hslug ⊢
      rw [List.nodup_middle] at hslug ⊢
      rw [List.nodup_cons] at hslug ⊢
      refine ⟨?_, hslug.2⟩
      intro hmem
      rw [← List.map_append] at hmem
      obtain ⟨o, ho, hoslug⟩ := List.mem_map.mp hmem
      refine hnot o ?_ hoslug
      rcases List.mem_append.mp ho with hmem2 | hmem2
      · exact List.mem_append.mpr (Or.inl hmem2)
      · exact List.mem_append.mpr (Or.inr (List.mem_cons_of_mem org hmem2))
  · intro o ho
    rcases List.mem_append.mp ho with hmem | hmem
    · exact hpat o (List.mem_append.mpr (Or.inl hmem))
    · rcases List.mem_cons.mp hmem with rfl | hmem2
      · rcases hslugcase with heq | ⟨hp, _⟩
        · rw [heq]
          exact hpat org (List.mem_append.mpr
            (Or.inr (List.mem_cons_self org l2)))
        · exact hp
      · exact hpat o (List.mem_append.mpr
          (Or.inr (List.mem_cons_of_mem org hmem2)))

theorem goodState_remove {l1 l2 : List OrganisationDocument}
    {org : OrganisationDocument} (hg : GoodState (l1 ++ org :: l2)) :
    GoodState (l1 ++ l2) := by
  obtain ⟨hid, hslug, hpat⟩ := hg
  have hsub : (l1 ++ l2).Sublist (l1 ++ org :: l2) :=
    List.Sublist.append_left (List.sublist_cons_self org l2) l1
  refine ⟨?_, ?_, ?_⟩
  · exact List.Nodup.sublist (hsub.map fun o => o._id) hid
  · exact List.Nodup.sublist (hsub.map fun o => o.slug) hslug
  · intro o ho
    exact hpat o (hsub.subset ho)

theorem reachable_goodState {db : List OrganisationDocument}
    (h : Reachable db) : GoodState db := by
  induction h with
  | empty => exact ⟨List.nodup_nil, List.nodup_nil, by simp⟩
  | stepCreate db freshId now input resp db2 _ hvalid hfresh hok ih =>
    have hpats : matchesSlugPattern input.slug = true := by
      simp only [validCreateInput, Bool.and_eq_true] at hvalid
      exact hvalid.2
    have hns : normaliseSlug input.slug = input.slug :=
      normaliseSlug_eq_self hpats
    simp only [OrganisationService.create] at hok
    cases hfind : OrganisationRepository.findBySlug db
        (normaliseSlug input.slug) with
    | some o =>
      rw [hfind] at hok
      simp at hok
    | none =>
      rw [hfind] at hok
      simp only [Except.ok.injEq, Prod.mk.injEq] at hok
      obtain ⟨_, hdb2⟩ := hok
      subst hdb2
      unfold OrganisationRepository.insertOne
      refine goodState_append ih hfresh ?_ ?_
      · intro o ho
        exact findBySlug_eq_none_iff.mp hfind o ho
      · show matchesSlugPattern (normaliseSlug input.slug) = true
        rw [hns]
        exact hpats
  | stepUpdate db now id input resp db2 _ hvalid hok ih =>
    simp only [OrganisationService.update] at hok
    cases hparse : parseObjectId id with
    | error e =>
      rw [hparse] at hok
      simp at hok
    | ok oid =>
      have hoid : oid = id := parseObjectId_ok hparse
      rw [hparse, hoid] at hok
      cases hfound : OrganisationRepository.findById db id with
      | none =>
        simp [hfound] at hok
      | some org =>
        cases hconf : OrganisationService.slugChangeConflict db org
            input.slug with
        | true =>
          simp [hfound, hconf] at hok
        | false =>
          have horgid : org._id = id := (findById_some hfound).2
          have hfound2 : OrganisationRepository.findById db org._id =
              some org := by
            rw [horgid]
            exact hfound
          simp only [hfound, hconf, Bool.false_eq_true, if_false,
            OrganisationRepository.updateById, hfound2, Except.ok.injEq,
            Prod.mk.injEq] at hok
          obtain ⟨_, hdb2⟩ := hok
          have hfind' : db.find? (fun o => o._id == id) = some org := hfound
          obtain ⟨l1, l2, hsplit, hl1⟩ := find?_split hfind'
          have hupd : updateFirstBy (fun d => d._id) db org._id
              (fun d => applySet d
                { name := Option.map normaliseName input.name
                  slug := Option.map normaliseSlug input.slug
                  status := input.status
                  updatedAt := now }) =
              l1 ++ applySet org
                { name := Option.map normaliseName input.name
                  slug := Option.map normaliseSlug input.slug
                  status := input.status
                  updatedAt := now } :: l2 := by
            rw [hsplit]
            exact updateFirstBy_append (fun d : OrganisationDocument => d._id)
              _ (fun x hx => by rw [horgid]; exact hl1 x hx) rfl
          rw [hupd] at hdb2
          subst hdb2
          rw [hsplit] at ih
          refine goodState_replace ih rfl ?_
          cases hs : input.slug with
          | none => exact Or.inl rfl
          | some s =>
            have hpin : matchesSlugPattern s = true := by
              simp only [validUpdateInput, hs, Bool.and_eq_true] at hvalid
              exact hvalid.2
            have hnss : normaliseSlug s = s := normaliseSlug_eq_self hpin
            by_cases heq : normaliseSlug s = org.slug
            · exact Or.inl heq
            · refine Or.inr ⟨?_, ?_⟩
              · show matchesSlugPattern (normaliseSlug s) = true
                rw [hnss]
                exact hpin
              · have hnone : OrganisationRepository.findBySlug db
                    (normaliseSlug s) = none := by
                  cases hf : OrganisationRepository.findBySlug db
                      (normaliseSlug s) with
                  | none => rfl
                  | some ex =>
                    exfalso
                    obtain ⟨hexmem, hexslug⟩ := findBySlug_some hf
                    have hexid : ex._id = org._id := by
                      simp only [OrganisationService.slugChangeConflict, hs,
                        hf] at hconf
                      rw [if_neg (by simp [heq])] at hconf
                      simpa using hconf
                    have hexeq : ex = org :=
                      List.inj_on_of_nodup_map ih.1 (hsplit ▸ hexmem)
                        (hsplit ▸ (findById_some hfound).1) hexid
                    rw [hexeq] at hexslug
                    exact heq hexslug.symm
                intro o ho hoslug
                refine findBySlug_eq_none_iff.mp hnone o (hsplit ▸ ho) ?_
                rw [hoslug]
                rfl
  | stepDelete db id db2 _ hok ih =>
    simp only [OrganisationService.delete] at hok
    cases hparse : parseObjectId id with
    | error e =>
      rw [hparse] at hok
      simp at hok
    | ok oid =>
      have hoid : oid = id := parseObjectId_ok hparse
      rw [hparse, hoid] at hok
      simp only [OrganisationRepository.deleteById] at hok
      cases hany : db.any (fun o => o._id == id) with
      | false =>
        rw [hany] at hok
        simp at hok
      | true =>
        rw [hany] at hok
        simp only [Except.ok.injEq] at hok
        cases hfound : OrganisationRepository.findById db id with
        | none =>
          exfalso
          have hall := findById_eq_none_iff.mp hfound
          obtain ⟨x, hx, hxid⟩ := List.any_eq_true.mp hany
          exact hall x hx (by simpa using hxid)
        | some org =>
          have hfind' : db.find? (fun o => o._id == id) = some org := hfound
          obtain ⟨l1, l2, hsplit, hl1⟩ := find?_split hfind'
          have hdel : deleteFirstBy (fun o => o._id) db id = l1 ++ l2 := by
            rw [hsplit]
            exact deleteFirstBy_append (fun o : OrganisationDocument => o._id)
              hl1 (findById_some hfound).2
          rw [hdel] at hok
          subst hok
          rw [hsplit] at ih
          exact goodState_remove ih

/-- C9: in every state of the organisations collection reachable through
validated create, update and delete calls, slugs are pairwise distinct and
every stored slug matches the kebab-case format. -/
theorem slug_invariant (db : List OrganisationDocument) (h : Reachable db) :
    (db.map fun o => o.slug).Nodup ∧
    ∀ o ∈ db, matchesSlugPattern o.slug = true :=
  ⟨(reachable_goodState h).2.1, (reachable_goodState h).2.2⟩

/-- Witness for C9: the concrete state reached by one validated create from
the empty collection satisfies the invariant. -/
theorem slug_invariant_witness :
    ∃ db, Reachable db ∧ ((db.map fun o => o.slug).Nodup ∧
      ∀ o ∈ db, matchesSlugPattern o.slug = true) := by
  have hreach : Reachable
      [{ _id := "aaaaaaaaaaaa", name := "Acme", slug := "acme",
         status := OrganisationStatus.active, createdAt := 0,
         updatedAt := 0 }] := by
    refine Reachable.stepCreate [] "aaaaaaaaaaaa" 0
      { name := "Acme", slug := "acme", status := none }
      { id := "aaaaaaaaaaaa", name := "Acme", slug := "acme",
        status := OrganisationStatus.active, createdAt := 0, updatedAt := 0 }
      [{ _id := "aaaaaaaaaaaa", name := "Acme", slug := "acme",
         status := OrganisationStatus.active, createdAt := 0,
         updatedAt := 0 }]
      Reachable.empty (by decide) (by simp) ?_
    rfl
  exact ⟨_, hreach, slug_invariant _ hreach⟩

end MultiTenant
